import Mathlib

set_option maxRecDepth 100000

/-!
Verification of the napcat-plugin-qq-version core engine: a shallow embedding
of `src/services/github-service.ts` (release fetching, link parsing, platform
matching) and `src/services/install-service.ts` (install orchestration and the
progress store), with theorems settling the specification claims.

Conventions of the embedding:
* JS strings are Lean `String`s; substring tests are modelled on `List Char`.
* The regex `/\*{0,2}\[([^\]]+)\]\((https?:\/\/[^)]+)\)\*{0,2}/g` used by
  `parseDownloadLinks` is modelled by an explicit left-to-right scanner whose
  greedy character classes are realised by `takeWhile`.
* Module-level mutable state (release cache, progress record, running flag) is
  threaded explicitly; `Date.now()` and all I/O outcomes (HTTP requests,
  subprocess invocations, filesystem probes) are supplied by oracle records.
-/

namespace QQVer

/-- Whitespace predicate used to model JavaScript `String.prototype.trim`. -/
def isWs (c : Char) : Bool :=
  c = ' ' || c = '\t' || c = '\n' || c = '\r' || c = '\x0b' || c = '\x0c'

/-- Model of JS `trim` on a character list: drop whitespace at both ends. -/
def trimChars (cs : List Char) : List Char :=
  ((cs.dropWhile isWs).reverse.dropWhile isWs).reverse

/-- Decide whether `needle` is a prefix of `hay` (character lists). -/
def startsWithList (needle hay : List Char) : Bool :=
  match needle, hay with
  | [], _ => true
  | _ :: _, [] => false
  | a :: as, b :: bs => a = b && startsWithList as bs

/-- Decide whether `needle` occurs contiguously inside `hay`. -/
def containsList (needle hay : List Char) : Bool :=
  match hay with
  | [] => startsWithList needle []
  | _ :: rest => startsWithList needle hay || containsList needle rest

/-- Substring containment, modelling JS `hay.includes(needle)`. -/
def incl (hay needle : String) : Bool :=
  containsList needle.toList hay.toList

/-- Suffix test, modelling JS `hay.endsWith(needle)`. -/
def endsW (hay needle : String) : Bool :=
  startsWithList needle.toList.reverse hay.toList.reverse

/-- Lower-casing, modelling JS `toLowerCase` for the ASCII data at hand. -/
def lowerStr (s : String) : String :=
  String.mk (s.toList.map Char.toLower)

/-- The platform vocabulary of `QQDownloadLink.platform`. -/
inductive Platform
  | windows
  | linux
  | mac
  | unknown
deriving DecidableEq, Repr

/-- The architecture vocabulary of `QQDownloadLink.arch`. -/
inductive Arch
  | x64
  | arm64
  | unknown
deriving DecidableEq, Repr

/-- The package-format vocabulary of `QQDownloadLink.format`. -/
inductive PkgFormat
  | exe
  | deb
  | rpm
  | dmg
  | unknown
deriving DecidableEq, Repr

/-- One parsed download candidate (`QQDownloadLink` in `src/types.ts`). -/
structure QQDownloadLink where
  label : String
  url : String
  platform : Platform
  arch : Arch
  format : PkgFormat
deriving DecidableEq, Repr

/-- Model of `detectPlatform(label, url)` from github-service.ts. -/
def detectPlatform (label url : String) : Platform :=
  let ll := lowerStr label
  let lu := lowerStr url
  if incl ll "win" || incl lu "_x64.exe" || incl lu "_x86.exe" then .windows
  else if incl ll "linux" || incl lu "linuxqq" then .linux
  else if incl ll "mac" || incl lu ".dmg" then .mac
  else .unknown

/-- The arm64 condition of `detectArch`: `arm64`/`aarch64` in the lowered
label or url. -/
def hasArmToken (label url : String) : Bool :=
  incl (lowerStr label) "arm64" || incl (lowerStr label) "aarch64" ||
  incl (lowerStr url) "arm64" || incl (lowerStr url) "aarch64"

/-- The x64 condition of `detectArch`: `x64`/`x86_64` in the lowered label, or
`x64`/`amd64`/`x86_64` in the lowered url. -/
def hasX64Token (label url : String) : Bool :=
  incl (lowerStr label) "x64" || incl (lowerStr label) "x86_64" ||
  incl (lowerStr url) "x64" || incl (lowerStr url) "amd64" ||
  incl (lowerStr url) "x86_64"

/-- Model of `detectArch(label, url)` from github-service.ts. -/
def detectArch (label url : String) : Arch :=
  if hasArmToken label url then .arm64
  else if hasX64Token label url then .x64
  else .unknown

/-- Model of `detectFormat(url)` from github-service.ts. -/
def detectFormat (url : String) : PkgFormat :=
  let lu := lowerStr url
  if endsW lu ".exe" then .exe
  else if endsW lu ".deb" then .deb
  else if endsW lu ".rpm" then .rpm
  else if endsW lu ".dmg" then .dmg
  else .unknown

/-- Recognise the mandatory `https?:\/\/` part of the URL group, returning the
matched characters and the remainder (greedy `s?` first, as the regex does). -/
def stripHttpPre : List Char → Option (List Char × List Char)
  | 'h' :: 't' :: 't' :: 'p' :: 's' :: ':' :: '/' :: '/' :: r =>
      some (['h', 't', 't', 'p', 's', ':', '/', '/'], r)
  | 'h' :: 't' :: 't' :: 'p' :: ':' :: '/' :: '/' :: r =>
      some (['h', 't', 't', 'p', ':', '/', '/'], r)
  | _ => none

/-- Consume up to two literal asterisks (the trailing `\*{0,2}`). -/
def dropStars : List Char → List Char
  | '*' :: '*' :: r => r
  | '*' :: r => r
  | r => r

/-- Attempt to match `\[([^\]]+)\]\((https?:\/\/[^)]+)\)\*{0,2}` at the head of
`cs` (the leading `\*{0,2}` having been consumed by the caller); on success
return the two capture groups and the remainder after the match. -/
def matchLink (cs : List Char) : Option (List Char × List Char × List Char) :=
  match cs with
  | '[' :: rest =>
    let lbl := rest.takeWhile (fun c => c ≠ ']')
    if lbl.isEmpty then none
    else
      match rest.drop lbl.length with
      | ']' :: '(' :: rest2 =>
        match stripHttpPre rest2 with
        | some (pre, rest3) =>
          let urlTail := rest3.takeWhile (fun c => c ≠ ')')
          if urlTail.isEmpty then none
          else
            match rest3.drop urlTail.length with
            | ')' :: rest4 => some (lbl, pre ++ urlTail, dropStars rest4)
            | _ => none
        | none => none
      | _ => none
  | _ => none

/-- Attempt a match whose leading `\*{0,2}` starts at the head of `cs`:
greedily try two stars, then one, then none, as the regex engine does. -/
def tryHere (cs : List Char) : Option (List Char × List Char × List Char) :=
  match cs with
  | '*' :: '*' :: r =>
      match matchLink r with
      | some m => some m
      | none =>
        match matchLink ('*' :: r) with
        | some m => some m
        | none => matchLink cs
  | '*' :: r =>
      match matchLink r with
      | some m => some m
      | none => matchLink cs
  | _ => matchLink cs

/-- Fuelled scanner realising the global `exec` loop: at each index attempt a
match; on success emit the captures and resume after the matched text, else
advance one character.  A successful match always consumes at least one
character, so fuel equal to the initial length never runs out. -/
def scanLinksAux : Nat → List Char → List (List Char × List Char)
  | 0, _ => []
  | _, [] => []
  | Nat.succ n, c :: rest =>
    match tryHere (c :: rest) with
    | some (lbl, url, after) => (lbl, url) :: scanLinksAux n after
    | none => scanLinksAux n rest

/-- All raw `[label](url)` captures of a release body, in order of appearance. -/
def scanLinks (body : String) : List (List Char × List Char) :=
  scanLinksAux body.toList.length body.toList

/-- Model of `parseDownloadLinks(body)` from github-service.ts: scan Markdown
links, keep only URLs on the QQ download host and outside the exclusion list,
and classify each retained pair. -/
def parseDownloadLinks (body : String) : List QQDownloadLink :=
  if body = "" then []
  else
    (scanLinks body).filterMap fun cap =>
      let label := String.mk (trimChars cap.1)
      let url := String.mk (trimChars cap.2)
      if !incl url "qq.com" || incl url "github.com" || incl url "aka.ms" then
        none
      else if incl url "napneko.github.io" then
        none
      else
        some { label := label, url := url, platform := detectPlatform label url,
               arch := detectArch label url, format := detectFormat url }

/-- The Node-platform-to-vocabulary mapping inside
`filterLinksForCurrentPlatform`. -/
def mapPlatform (platform : String) : Platform :=
  if platform = "win32" then .windows
  else if platform = "linux" then .linux
  else if platform = "darwin" then .mac
  else .unknown

/-- The Node-arch-to-vocabulary mapping inside `filterLinksForCurrentPlatform`. -/
def mapArch (arch : String) : Arch :=
  if arch = "x64" || arch = "x86_64" then .x64
  else if arch = "arm64" || arch = "aarch64" then .arm64
  else .unknown

/-- Model of `filterLinksForCurrentPlatform(links)`; the live values of
`process.platform` and `process.arch` are passed explicitly. -/
def filterLinksForCurrentPlatform (platform arch : String)
    (links : List QQDownloadLink) : List QQDownloadLink :=
  let targetPlatform := mapPlatform platform
  let targetArch := mapArch arch
  links.filter fun link =>
    if link.platform ≠ targetPlatform then false
    else if targetArch ≠ .unknown && link.arch ≠ .unknown && link.arch ≠ targetArch then
      false
    else true

/-! ### Release fetcher (`fetchMatchingRelease`, `clearCache`) -/

/-- One GitHub release document (`GitHubRelease` in `src/types.ts`). -/
structure GitHubRelease where
  tag_name : String
  name : String
  body : String
  published_at : String
  prerelease : Bool
  html_url : String
deriving DecidableEq, Repr

/-- The module-level `releaseCache` record of github-service.ts. -/
structure ReleaseCache where
  data : Option GitHubRelease
  timestamp : Nat
  version : String
deriving DecidableEq, Repr

/-- The cache TTL `CACHE_TTL_MS = 5 * 60 * 1000`. -/
def CACHE_TTL_MS : Nat := 5 * 60 * 1000

/-- The initial / cleared cache value; `clearCache` resets the cache to it. -/
def clearedCache : ReleaseCache := { data := none, timestamp := 0, version := "" }

/-- Network oracle: the outcome `httpGetJson` would produce for each release
endpoint.  `tagged t` answers `GET /releases/tags/{t}`; `latest` answers
`GET /releases/latest`.  An `Except.error` models any rejected request
(HTTP error status, timeout, or JSON parse failure). -/
structure FetchOracle where
  tagged : String → Except String GitHubRelease
  latest : Except String GitHubRelease

/-- Strip one leading `v` or `V` from a version string, modelling
`version.replace(/^v/i, '')`. -/
def stripLeadV (s : String) : String :=
  match s.toList with
  | 'v' :: rest => String.mk rest
  | 'V' :: rest => String.mk rest
  | _ => s

/-- The first tag tried: `version.startsWith('v') ? version : 'v' + version`. -/
def exactTagName (version : String) : String :=
  match version.toList with
  | 'v' :: _ => version
  | _ => "v" ++ version

/-- The second tag tried: `'V' + version.replace(/^v/i, '')`. -/
def upperTagName (version : String) : String :=
  "V" ++ stripLeadV version

/-- The key a resolution is cached under:
`cachedNapCatVersion || 'latest'` (only the empty string is falsy here). -/
def resolvedKey (cachedVersion : String) : String :=
  if cachedVersion = "" then "latest" else cachedVersion

/-- The exact-tag phase of `fetchMatchingRelease`: when a usable version is
known, try the `v`-prefixed tag, then the upper-case `V` tag; each `catch` is
local.  Returns the release found (if any) and the number of HTTP requests
made. -/
def tagStep (oracle : FetchOracle) (cachedVersion : String) :
    Option GitHubRelease × Nat :=
  if cachedVersion ≠ "" && cachedVersion ≠ "unknown" then
    match oracle.tagged (exactTagName cachedVersion) with
    | .ok r => (some r, 1)
    | .error _ =>
      match oracle.tagged (upperTagName cachedVersion) with
      | .ok r => (some r, 2)
      | .error _ => (none, 2)
  else (none, 0)

/-- Model of `fetchMatchingRelease()`.  `cachedVersion` is the module-level
`cachedNapCatVersion`, `now` is `Date.now()`.  Returns the release (or `none`,
the code's `null`), the updated cache, and the number of HTTP requests made. -/
def fetchMatchingRelease (oracle : FetchOracle) (cachedVersion : String)
    (now : Nat) (c : ReleaseCache) : Option GitHubRelease × ReleaseCache × Nat :=
  let currentVersion := resolvedKey cachedVersion
  if c.data.isSome && c.version = currentVersion && now - c.timestamp < CACHE_TTL_MS then
    (c.data, c, 0)
  else
    match tagStep oracle cachedVersion with
    | (some r, n) =>
        (some r, { data := some r, timestamp := now, version := currentVersion }, n)
    | (none, n) =>
      match oracle.latest with
      | .ok r =>
          (some r, { data := some r, timestamp := now, version := currentVersion }, n + 1)
      | .error _ => (none, c, n + 1)

/-! ### Install orchestrator and progress store (`install-service.ts`)

Mutable module state (`installProgress`, `installRunning`) is threaded as a
`SysState`; every assignment to `installProgress` is additionally appended to a
trace so that the sequence of written progress records can be reasoned about.
All subprocess, filesystem and download outcomes are supplied by an
`InstallEnv` oracle. -/

/-- The `InstallStage` union of `src/types.ts`. -/
inductive InstallStage
  | idle
  | downloading
  | extracting
  | installing
  | done
  | error
deriving DecidableEq, Repr

/-- The `InstallProgress` record of `src/types.ts`; optional fields are absent
(`none`) unless the write supplies them. -/
structure InstallProgress where
  stage : InstallStage
  percent : Nat
  message : String
  downloadedBytes : Option Nat := none
  totalBytes : Option Nat := none
  speed : Option Nat := none
  error : Option String := none
  finishedAt : Option Nat := none
deriving DecidableEq, Repr

/-- The optional `extra` argument of `updateProgress`; the source spreads it
into a fresh record, so omitted fields become absent. -/
structure ProgressExtra where
  downloadedBytes : Option Nat := none
  totalBytes : Option Nat := none
  speed : Option Nat := none
  error : Option String := none
  finishedAt : Option Nat := none
deriving DecidableEq, Repr

/-- External effects the installer performs on the scratch directory. -/
inductive InstallAction
  | scratchReset
  | scratchCleanup (ok : Bool)
deriving DecidableEq, Repr

/-- The process-wide mutable state of install-service.ts plus an audit trail:
`trace` records every value assigned to `installProgress`, in order, and
`actions` records scratch-directory operations. -/
structure SysState where
  running : Bool
  progress : InstallProgress
  trace : List InstallProgress
  actions : List InstallAction
deriving DecidableEq, Repr

/-- The initial progress value `{ stage: 'idle', percent: 0, message: '就绪' }`. -/
def idleProgress : InstallProgress :=
  { stage := .idle, percent := 0, message := "就绪" }

/-- Model of `updateProgress(stage, percent, message, extra)`: replaces the
whole `installProgress` record. -/
def updateProgressM (s : SysState) (stage : InstallStage) (percent : Nat)
    (message : String) (extra : ProgressExtra) : SysState :=
  let p : InstallProgress :=
    { stage := stage, percent := percent, message := message,
      downloadedBytes := extra.downloadedBytes, totalBytes := extra.totalBytes,
      speed := extra.speed, error := extra.error, finishedAt := extra.finishedAt }
  { s with progress := p, trace := s.trace ++ [p] }

/-- Model of `resetInstallProgress()`: restores the idle record AND clears the
`installRunning` flag. -/
def resetInstallProgressM (s : SysState) : SysState :=
  { running := false, progress := idleProgress,
    trace := s.trace ++ [idleProgress], actions := s.actions }

/-- Model of `isInstallRunning()`. -/
def isInstallRunning (s : SysState) : Bool := s.running

/-- Model of `getInstallProgress()` (the defensive copy is value equality). -/
def getInstallProgress (s : SysState) : InstallProgress := s.progress

/-- Result of `detectPackageInstaller()`: which of dpkg / rpm is on PATH. -/
inductive PkgInstaller
  | dpkg
  | rpm
  | none
deriving DecidableEq, Repr

/-- Result of `detectPackageManager()`: which of apt-get / dnf is on PATH. -/
inductive PkgManager
  | aptGet
  | dnf
  | none
deriving DecidableEq, Repr

/-- Result of `getSystemArch()`. -/
inductive SysArch
  | amd64
  | arm64
  | unknown
deriving DecidableEq, Repr

/-- Model of `getSystemArch()` applied to `process.arch`. -/
def getSystemArch (arch : String) : SysArch :=
  if arch = "x64" then .amd64 else if arch = "arm64" then .arm64 else .unknown

/-- The string value a `QQDownloadLink.format` carries in the source, used in
error messages that interpolate `link.format`. -/
def formatName : PkgFormat → String
  | .exe => "exe"
  | .deb => "deb"
  | .rpm => "rpm"
  | .dmg => "dmg"
  | .unknown => "unknown"

/-- Oracle for one install run: the live platform probes and the outcome of
every external effect, in program order.  A `some msg` in a `…Result` field
means that step threw with message `msg`; `none` means it succeeded. -/
structure InstallEnv where
  platform : String
  arch : String
  packageInstaller : PkgInstaller
  packageManager : PkgManager
  rpmToolsOk : Bool
  homeDir : String
  docker : Bool
  rootless : Bool
  mkdirResult : Option String
  dlTotal : Nat
  dlChunks : List (Nat × Bool)
  dlResult : Option String
  pkgFileExists : Bool
  pkgFileSize : Nat
  extractResult : Option String
  extractedQQDirOk : Bool
  copyResult : Option String
  installCmdResult : Option String
  cleanupFails : Bool
  now : Nat
deriving DecidableEq, Repr

/-- JS `Math.round((d / t) * 50)` for the nonnegative values at hand. -/
def jsRound50 (d t : Nat) : Nat := (100 * d + t) / (2 * t)

/-- The per-callback download percent:
`total > 0 ? Math.min(Math.round((downloaded/total)*50) + 5, 55) : 10`. -/
def dlPercent (d total : Nat) : Nat :=
  if 0 < total then min (jsRound50 d total + 5) 55 else 10

/-- The `res.on('data')` loop of `downloadFile`: accumulate chunk sizes; a
chunk whose flag is `true` fires the throttled progress callback. -/
def dlEvents (total : Nat) (chunks : List (Nat × Bool)) (acc : Nat)
    (s : SysState) : SysState :=
  match chunks with
  | [] => s
  | (c, fire) :: rest =>
    let d := acc + c
    let s2 :=
      if fire then
        updateProgressM s .downloading (dlPercent d total) "正在下载 QQ 安装包..."
          { downloadedBytes := some d, totalBytes := some total, speed := some c }
      else s
    dlEvents total rest d s2

/-- Record the `rm -rf` of the scratch directory attempted in every `catch`
block and in the late cleanup stage; its failure is swallowed, so the state is
otherwise unchanged whatever `cleanupFails` says. -/
def attemptCleanup (env : InstallEnv) (s : SysState) : SysState :=
  { s with actions := s.actions ++ [.scratchCleanup (!env.cleanupFails)] }

/-- The shared `try … catch` shape of all three install bodies: on a thrown
error, attempt scratch cleanup (failures swallowed), write the `error`
progress record with the raised message, and rethrow. -/
def withInstallCatch (env : InstallEnv) (body : SysState → SysState × Option String)
    (s : SysState) : SysState × Option String :=
  match body s with
  | (s2, Option.none) => (s2, Option.none)
  | (s2, some e) =>
    let s3 := attemptCleanup env s2
    let s4 := updateProgressM s3 .error 0 "安装失败" { error := some e }
    (s4, some e)

/-- The download stage shared by all three bodies: the initial 5% write, the
progress callbacks, the outcome of the download promise, the two post-download
file checks, and the 55% write. -/
def downloadStage (env : InstallEnv) (startMsg : String) (s : SysState) :
    SysState × Option String :=
  let s1 := updateProgressM s .downloading 5 startMsg
    { downloadedBytes := some 0, totalBytes := some 0, speed := some 0 }
  let s2 := dlEvents env.dlTotal env.dlChunks 0 s1
  match env.dlResult with
  | some e => (s2, some e)
  | Option.none =>
    if !env.pkgFileExists then (s2, some "安装包下载失败：文件不存在")
    else if env.pkgFileSize < 1024 * 100 then
      (s2, some "安装包下载失败：文件过小，可能下载不完整")
    else (updateProgressM s2 .downloading 55 "下载完成" {}, Option.none)

/-- The `try` body of `installOnLinuxRootless` (scratch reset through the
`done` write).  The patch and version-config steps never throw outward in the
source (their exceptions are caught and logged), so they contribute only their
progress writes. -/
def rootlessBody (env : InstallEnv) (s0 : SysState) : SysState × Option String :=
  match env.mkdirResult with
  | some e => ({ s0 with actions := s0.actions ++ [InstallAction.scratchReset] }, some e)
  | Option.none =>
    match downloadStage env "开始下载 QQ 安装包..."
        { s0 with actions := s0.actions ++ [InstallAction.scratchReset] } with
    | (s2, some e) => (s2, some e)
    | (s2, Option.none) =>
      let s3 := updateProgressM s2 .extracting 58 "正在解压 QQ 安装包..." {}
      match env.extractResult with
      | some e => (s3, some e)
      | Option.none =>
        if !env.extractedQQDirOk then (s3, some "解压失败：未找到 opt/QQ 目录")
        else
          let s4 := updateProgressM s3 .extracting 65 "解压完成" {}
          let s5 := updateProgressM s4 .installing 70 "正在更新 QQ 文件（不影响 NapCat）..." {}
          match env.copyResult with
          | some e => (s5, some e)
          | Option.none =>
            let s6 := updateProgressM s5 .installing 82 "文件覆盖完成" {}
            let s7 := updateProgressM s6 .installing 84 "正在修补 NapCat 启动配置..." {}
            let s8 := updateProgressM s7 .installing 88 "正在更新版本配置..." {}
            let s9 := updateProgressM s8 .installing 93 "正在清理临时文件..." {}
            let s10 := attemptCleanup env s9
            let s11 := updateProgressM s10 .done 100 "QQ 安装完成！重启 NapCat 后生效。"
              { finishedAt := some env.now }
            (s11, Option.none)

/-- The `try` body of `installOnLinuxSystem`. -/
def systemBody (env : InstallEnv) (link : QQDownloadLink) (s0 : SysState) :
    SysState × Option String :=
  match env.mkdirResult with
  | some e => (s0, some e)
  | Option.none =>
    match downloadStage env "开始下载 QQ 安装包..." s0 with
    | (s2, some e) => (s2, some e)
    | (s2, Option.none) =>
      let s3 := updateProgressM s2 .installing 60 "正在安装 QQ..." {}
      match env.installCmdResult with
      | some e => (s3, some e)
      | Option.none =>
        let s4 :=
          if link.format = .deb then
            let sA := updateProgressM s3 .installing 80 "deb 包安装完成" {}
            updateProgressM sA .installing 85 "正在安装依赖..." {}
          else
            updateProgressM s3 .installing 85 "rpm 包安装完成" {}
        let s5 := updateProgressM s4 .installing 88 "正在更新版本配置..." {}
        let s6 := updateProgressM s5 .installing 90 "正在清理临时文件..." {}
        let s7 := attemptCleanup env s6
        let s8 := updateProgressM s7 .done 100 "QQ 安装完成！重启 NapCat 后生效。"
          { finishedAt := some env.now }
        (s8, Option.none)

/-- The `try` body of `installOnDocker`. -/
def dockerBody (env : InstallEnv) (s0 : SysState) : SysState × Option String :=
  match env.mkdirResult with
  | some e => ({ s0 with actions := s0.actions ++ [InstallAction.scratchReset] }, some e)
  | Option.none =>
    match downloadStage env "开始下载 QQ 安装包 (Docker)..."
        { s0 with actions := s0.actions ++ [InstallAction.scratchReset] } with
    | (s2, some e) => (s2, some e)
    | (s2, Option.none) =>
      let s3 := updateProgressM s2 .extracting 58 "正在解压 QQ 安装包 (dpkg -x)..." {}
      match env.extractResult with
      | some e => (s3, some e)
      | Option.none =>
        if !env.extractedQQDirOk then (s3, some "解压失败：未找到 opt/QQ 目录")
        else
          let s4 := updateProgressM s3 .extracting 65 "解压完成" {}
          let s5 := updateProgressM s4 .installing 70 "正在更新 QQ 文件 (Docker /opt/QQ)..." {}
          match env.copyResult with
          | some e => (s5, some e)
          | Option.none =>
            let s6 := updateProgressM s5 .installing 82 "文件覆盖完成" {}
            let s7 := updateProgressM s6 .installing 84 "正在修补 NapCat 启动配置 (Docker)..." {}
            let s8 := updateProgressM s7 .installing 88 "正在更新版本配置..." {}
            let s9 := updateProgressM s8 .installing 93 "正在清理临时文件..." {}
            let s10 := attemptCleanup env s9
            let s11 := updateProgressM s10 .done 100 "QQ 安装完成！重启 Docker 容器后生效。"
              { finishedAt := some env.now }
            (s11, Option.none)

/-- Model of `installOnLinuxRootless(link)`: the synchronous precondition
throws (before the `try` block), then the guarded body. -/
def installOnLinuxRootless (env : InstallEnv) (link : QQDownloadLink)
    (s : SysState) : SysState × Option String :=
  if getSystemArch env.arch = .unknown then (s, some "不支持的系统架构")
  else if link.format = .deb && env.packageInstaller ≠ .dpkg then
    (s, some "当前系统不支持 deb 包解压（未检测到 dpkg）")
  else if link.format = .rpm && !env.rpmToolsOk then
    (s, some "当前系统不支持 rpm 包解压（未检测到 rpm2cpio/cpio）")
  else if link.format ≠ .deb && link.format ≠ .rpm then
    (s, some ("不支持的安装包格式: " ++ formatName link.format ++ "，Linux 仅支持 deb/rpm"))
  else if env.homeDir = "" then
    (s, some "无法获取 HOME 目录，无法确定 rootless 安装路径")
  else withInstallCatch env (rootlessBody env) s

/-- Model of `installOnLinuxSystem(link)`. -/
def installOnLinuxSystem (env : InstallEnv) (link : QQDownloadLink)
    (s : SysState) : SysState × Option String :=
  if getSystemArch env.arch = .unknown then (s, some "不支持的系统架构")
  else if link.format = .deb && env.packageInstaller ≠ .dpkg then
    (s, some "当前系统不支持 deb 包安装（未检测到 dpkg）")
  else if link.format = .rpm && env.packageInstaller ≠ .rpm then
    (s, some "当前系统不支持 rpm 包安装（未检测到 rpm）")
  else if link.format ≠ .deb && link.format ≠ .rpm then
    (s, some ("不支持的安装包格式: " ++ formatName link.format ++ "，Linux 仅支持 deb/rpm"))
  else withInstallCatch env (systemBody env link) s

/-- Model of `installOnDocker(link)`. -/
def installOnDocker (env : InstallEnv) (link : QQDownloadLink)
    (s : SysState) : SysState × Option String :=
  if getSystemArch env.arch = .unknown then (s, some "不支持的系统架构")
  else if link.format ≠ .deb then
    (s, some ("Docker 环境仅支持 deb 格式安装包，当前格式: " ++ formatName link.format))
  else if env.packageInstaller ≠ .dpkg then
    (s, some "Docker 环境中未检测到 dpkg，无法解压 deb 包")
  else withInstallCatch env (dockerBody env) s

/-- The topology dispatch of `startInstall`: Docker, then rootless, then
system-wide. -/
def installDispatch (env : InstallEnv) (link : QQDownloadLink) (s1 : SysState) :
    SysState × Option String :=
  if env.docker then installOnDocker env link s1
  else if env.rootless then installOnLinuxRootless env link s1
  else installOnLinuxSystem env link s1

/-- Model of `startInstall(ctx, link)`: the guard and platform throws, then —
exactly as the source does — `installRunning = true` immediately followed by
`resetInstallProgress()` (which clears the flag again), the topology dispatch,
and the `finally` clause clearing the flag. -/
def startInstall (env : InstallEnv) (link : QQDownloadLink) (s : SysState) :
    SysState × Option String :=
  if s.running then (s, some "已有安装任务正在进行中")
  else if env.platform = "win32" then
    (s, some "Windows 平台不支持自动安装，请手动下载安装")
  else if env.platform = "darwin" then
    (s, some "macOS 平台不支持自动安装，请手动下载安装")
  else if env.platform ≠ "linux" then
    (s, some ("不支持的平台: " ++ env.platform))
  else
    ({ (installDispatch env link (resetInstallProgressM { s with running := true })).1
        with running := false },
     (installDispatch env link (resetInstallProgressM { s with running := true })).2)

/-- The synchronous segment of `startInstall` executed before the first
`await` of the dispatched installer: the guards, `installRunning = true`, and
the `resetInstallProgress()` call.  This is the state another asynchronous
task observes once the run suspends on its first I/O wait. -/
def startInstallPrelude (env : InstallEnv) (s : SysState) :
    SysState × Option String :=
  if s.running then (s, some "已有安装任务正在进行中")
  else if env.platform = "win32" then
    (s, some "Windows 平台不支持自动安装，请手动下载安装")
  else if env.platform = "darwin" then
    (s, some "macOS 平台不支持自动安装，请手动下载安装")
  else if env.platform ≠ "linux" then
    (s, some ("不支持的平台: " ++ env.platform))
  else (resetInstallProgressM { s with running := true }, Option.none)

/-- The request-body fields the `/install/start` route reads. -/
structure RouteBody where
  url : Option String
  label : Option String
  platform : Option Platform
  arch : Option Arch
  format : Option PkgFormat
deriving DecidableEq, Repr

/-- Model of the `/install/start` route handler of api-service.ts: its
synchronous guards (platform, running flag, missing url), the link it builds
from the body, and the fire-and-forget `startInstall` call.  Returns the
state, the rejection message (if rejected), and whether a run was started. -/
def installStartRoute (env : InstallEnv) (body : RouteBody) (s : SysState) :
    SysState × Option String × Bool :=
  if env.platform = "win32" then
    (s, some "Windows 平台不支持自动安装，请手动下载安装包进行安装", false)
  else if env.platform = "darwin" then
    (s, some "macOS 平台不支持自动安装，请手动下载 DMG 安装包进行安装", false)
  else if isInstallRunning s then
    (s, some "已有安装任务正在进行中", false)
  else
    match body.url with
    | Option.none => (s, some "缺少下载链接 url", false)
    | some u =>
      if u = "" then (s, some "缺少下载链接 url", false)
      else
        let link : QQDownloadLink :=
          { url := u, label := body.label.getD "",
            platform := body.platform.getD .unknown,
            arch := body.arch.getD .unknown,
            format := body.format.getD .unknown }
        ((startInstall env link s).1, Option.none, true)

/-- Model of the `/install/reset` route handler: it just calls
`resetInstallProgress()`. -/
def installResetRoute (s : SysState) : SysState := resetInstallProgressM s

/-! ### Precondition and message predicates used by the failure-path claims -/

/-- The rootless installer's precondition throws all pass: known architecture,
a format/tool pairing it supports, and a HOME directory. -/
def rootlessPrecheckOk (env : InstallEnv) (link : QQDownloadLink) : Bool :=
  getSystemArch env.arch ≠ .unknown &&
  ((link.format = .deb && env.packageInstaller = .dpkg) ||
   (link.format = .rpm && env.rpmToolsOk)) &&
  env.homeDir ≠ ""

/-- The system-wide installer's precondition throws all pass. -/
def systemPrecheckOk (env : InstallEnv) (link : QQDownloadLink) : Bool :=
  getSystemArch env.arch ≠ .unknown &&
  ((link.format = .deb && env.packageInstaller = .dpkg) ||
   (link.format = .rpm && env.packageInstaller = .rpm))

/-- The Docker installer's precondition throws all pass. -/
def dockerPrecheckOk (env : InstallEnv) (link : QQDownloadLink) : Bool :=
  getSystemArch env.arch ≠ .unknown && link.format = .deb &&
  env.packageInstaller = .dpkg

/-- The dispatched installer's precondition throws all pass, so that any
failure of the run comes from a pipeline stage inside the `try` block. -/
def installPrechecksOk (env : InstallEnv) (link : QQDownloadLink) : Bool :=
  if env.docker then dockerPrecheckOk env link
  else if env.rootless then rootlessPrecheckOk env link
  else systemPrecheckOk env link

/-- An injectable failure message, when present, is non-empty. -/
def msgOk : Option String → Bool
  | Option.none => true
  | some m => m ≠ ""

/-- Every failure message the environment can inject is non-empty (true of
every real exception message the wrapped calls produce). -/
def envMsgsOk (env : InstallEnv) : Bool :=
  msgOk env.mkdirResult && msgOk env.dlResult && msgOk env.extractResult &&
  msgOk env.copyResult && msgOk env.installCmdResult

/-- The per-write relation of the percent-monotonicity invariant: each
successive progress write either is the `error` write (which resets percent)
or does not decrease percent. -/
def monoR (p q : InstallProgress) : Prop :=
  q.stage = .error ∨ p.percent ≤ q.percent

/-- Invariant carried through a run: the writes so far form a `monoR` chain,
the last written percent is at most `k`, and every `error` write carries
percent 0. -/
def TraceOk (k : Nat) (s : SysState) : Prop :=
  List.Chain' monoR s.trace ∧
  (∀ p, s.trace.getLast? = some p → p.percent ≤ k) ∧
  (∀ p ∈ s.trace, p.stage = .error → p.percent = 0)

/-! ### Concrete fixtures used by closed theorems -/

/-- A fresh progress-store state (process start). -/
def freshState : SysState :=
  { running := false, progress := idleProgress, trace := [], actions := [] }

/-- A linux rootless environment in which every install step succeeds. -/
def envRootlessOk : InstallEnv :=
  { platform := "linux", arch := "x64", packageInstaller := .dpkg,
    packageManager := .aptGet, rpmToolsOk := false, homeDir := "/root",
    docker := false, rootless := true, mkdirResult := none,
    dlTotal := 1000000,
    dlChunks := [(300000, true), (400000, true), (300000, true)],
    dlResult := none, pkgFileExists := true, pkgFileSize := 200000,
    extractResult := none, extractedQQDirOk := true, copyResult := none,
    installCmdResult := none, cleanupFails := false, now := 42 }

/-- The same environment with the extraction subprocess failing. -/
def envFailExtract : InstallEnv :=
  { envRootlessOk with extractResult := some "dpkg exploded" }

/-- A deb download candidate. -/
def debLink : QQDownloadLink :=
  { label := "LinuxX64 DEB",
    url := "https://dldir1.qq.com/linuxqq_3.2.25-45758_amd64.deb",
    platform := .linux, arch := .x64, format := .deb }

/-- An exe candidate (a format no linux topology supports). -/
def exeLink : QQDownloadLink :=
  { label := "Win X64", url := "https://dldir1.qq.com/QQ9.9.26_x64.exe",
    platform := .windows, arch := .x64, format := .exe }

/-- A state in which a previous run completed (`done`, 100%). -/
def doneState : SysState :=
  { running := false,
    progress := { stage := .done, percent := 100,
                  message := "QQ 安装完成！重启 NapCat 后生效。",
                  finishedAt := some 41 },
    trace := [], actions := [] }

/-- A sample release document. -/
def cexRelease : GitHubRelease :=
  { tag_name := "v9.9.9", name := "r", body := "", published_at := "",
    prerelease := false, html_url := "" }

/-- A network oracle on which both tag lookups 404 and `latest` succeeds. -/
def cexOracle : FetchOracle :=
  { tagged := fun _ => .error "HTTP 404", latest := .ok cexRelease }

/-- A cache entry written at time 0 for version hint `4.15.17`. -/
def cexCache : ReleaseCache :=
  { data := some cexRelease, timestamp := 0, version := "4.15.17" }

/-! ## Helper lemmas -/

/-- A string containing a non-empty substring is non-empty; instance for the
download host marker. -/
theorem incl_qq_ne_empty (u : String) (h : incl u "qq.com" = true) : u ≠ "" := by
  intro h0
  rw [h0] at h
  exact absurd h (by decide)

/-! ## Claim theorems -/

/-- C10: `resetInstallProgress` always clears the install-running flag in
addition to restoring the idle progress record (stage `idle`, percent 0),
whatever state it is invoked in — in particular while a run is in flight —
and the reset route does the same, so `isInstallRunning()` returns `false`
after any reset. -/
theorem resetInstallProgress_clears_running (s : SysState) :
    (resetInstallProgressM s).running = false ∧
    (resetInstallProgressM s).progress = idleProgress ∧
    (resetInstallProgressM s).progress.stage = .idle ∧
    (resetInstallProgressM s).progress.percent = 0 ∧
    isInstallRunning (resetInstallProgressM s) = false ∧
    isInstallRunning (installResetRoute s) = false := by
  refine ⟨rfl, rfl, rfl, rfl, rfl, rfl⟩

/-- C6 (counterexample): the original claim says every returned candidate has
a non-empty label, but a Markdown link whose bracketed text is a lone space —
`[ ](https://dldir1.qq.com/f.exe)` — survives the host filter and is returned
with its label trimmed to the empty string. -/
theorem parseDownloadLinks_empty_label_cex :
    ∃ l ∈ parseDownloadLinks "[ ](https://dldir1.qq.com/f.exe)", l.label = "" := by
  refine ⟨{ label := "", url := "https://dldir1.qq.com/f.exe",
            platform := .unknown, arch := .unknown, format := .exe }, ?_, rfl⟩
  decide

/-- C6 (amended): every candidate returned by `parseDownloadLinks` has a URL
that contains the expected download-host marker `qq.com`, contains none of the
excluded domains (`github.com`, `aka.ms`, `napneko.github.io`), and is
non-empty; an empty body yields the empty list rather than a failure.  (The
original claim's "non-empty label" part fails when the bracketed label text is
entirely whitespace, since labels are trimmed.) -/
theorem parseDownloadLinks_host_filter (body : String) (l : QQDownloadLink)
    (h : l ∈ parseDownloadLinks body) :
    incl l.url "qq.com" = true ∧ incl l.url "github.com" = false ∧
    incl l.url "aka.ms" = false ∧ incl l.url "napneko.github.io" = false ∧
    l.url ≠ "" ∧ parseDownloadLinks "" = [] := by
  unfold parseDownloadLinks at h
  split at h
  · simp at h
  · rw [List.mem_filterMap] at h
    obtain ⟨cap, -, hcap⟩ := h
    simp only at hcap
    cases hqq : incl (String.mk (trimChars cap.2)) "qq.com" <;>
      cases hgh : incl (String.mk (trimChars cap.2)) "github.com" <;>
        cases hms : incl (String.mk (trimChars cap.2)) "aka.ms" <;>
          cases hnk : incl (String.mk (trimChars cap.2)) "napneko.github.io" <;>
            simp only [hqq, hgh, hms, hnk, Bool.not_true, Bool.not_false,
              Bool.false_or, Bool.true_or, Bool.or_true, Bool.or_false,
              if_true, if_false, Bool.false_eq_true, reduceCtorEq,
              reduceIte] at hcap
    injection hcap with hcap
    subst hcap
    exact ⟨hqq, hgh, hms, hnk, incl_qq_ne_empty _ hqq, rfl⟩

/-- C6 helper fact used by the witness: the sample body has a candidate. -/
theorem sample_qq_link_mem :
    ∃ l ∈ parseDownloadLinks "[QQ](https://a.qq.com/x.deb)",
      l.url = "https://a.qq.com/x.deb" := by decide

/-- C6 (witness). -/
theorem parseDownloadLinks_host_filter_witness :
    incl "https://a.qq.com/x.deb" "qq.com" = true ∧
    incl "https://a.qq.com/x.deb" "github.com" = false := by
  obtain ⟨l, hl, hurl⟩ := sample_qq_link_mem
  have h := parseDownloadLinks_host_filter _ _ hl
  rw [hurl] at h
  exact ⟨h.1, h.2.1⟩

/-- C7 (counterexample): the original claim says any occurrence of `amd64`
yields architecture x64, but the code checks `amd64` only in the URL — a label
reading `amd64` with a token-free URL classifies as `unknown`. -/
theorem detectArch_amd64_label_cex :
    detectArch "amd64" "https://dldir1.qq.com/f.deb" = .unknown := by decide

/-- C7 (amended): the classification tables as implemented — any occurrence of
`arm64`/`aarch64` in label or url gives arm64; otherwise `x64`/`x86_64` in the
label, or `x64`/`amd64`/`x86_64` in the url, gives x64 (`amd64` counts only in
the url); otherwise unknown — and the scenario-A body parses to exactly one
candidate {windows, x64, exe}. -/
theorem detectArch_table (label url : String) :
    (hasArmToken label url = true → detectArch label url = .arm64) ∧
    (hasArmToken label url = false → hasX64Token label url = true →
      detectArch label url = .x64) ∧
    (hasArmToken label url = false → hasX64Token label url = false →
      detectArch label url = .unknown) ∧
    parseDownloadLinks "**[9.9.26-44343 X64 Win](https://dldir1.qq.com/.../QQ9.9.26.44343_x64.exe)**" =
      [{ label := "9.9.26-44343 X64 Win",
         url := "https://dldir1.qq.com/.../QQ9.9.26.44343_x64.exe",
         platform := .windows, arch := .x64, format := .exe }] := by
  refine ⟨fun h => ?_, fun h1 h2 => ?_, fun h1 h2 => ?_, by decide⟩
  · simp [detectArch, h]
  · simp [detectArch, h1, h2]
  · simp [detectArch, h1, h2]

/-- C7 (witness). -/
theorem detectArch_table_witness :
    detectArch "LinuxArm64 DEB" "https://dldir1.qq.com/a.deb" = .arm64 ∧
    detectArch "AMD64 build" "https://dldir1.qq.com/linuxqq_amd64.deb" = .x64 ∧
    detectArch "QQ" "https://dldir1.qq.com/a.dmg" = .unknown := by
  refine ⟨(detectArch_table "LinuxArm64 DEB" "https://dldir1.qq.com/a.deb").1 (by decide),
    (detectArch_table "AMD64 build" "https://dldir1.qq.com/linuxqq_amd64.deb").2.1
      (by decide) (by decide),
    (detectArch_table "QQ" "https://dldir1.qq.com/a.dmg").2.2.1 (by decide) (by decide)⟩

/-- C8: `filterLinksForCurrentPlatform` returns only candidates whose platform
equals the mapped current platform; among platform matches it keeps every
candidate with unknown architecture regardless of the live architecture;
the result is a sublist of the input (original order preserved); and on a
linux/x64 environment the scenario-B body (one deb link, one dmg link)
filters to exactly the deb candidate. -/
theorem filterLinks_platform_match (platform arch : String)
    (links : List QQDownloadLink) :
    (∀ l ∈ filterLinksForCurrentPlatform platform arch links,
       l.platform = mapPlatform platform) ∧
    (∀ l ∈ links, l.platform = mapPlatform platform → l.arch = .unknown →
       l ∈ filterLinksForCurrentPlatform platform arch links) ∧
    (filterLinksForCurrentPlatform platform arch links).Sublist links ∧
    filterLinksForCurrentPlatform "linux" "x64"
      (parseDownloadLinks
        "[LinuxX64 DEB 45758](https://dldir1.qq.com/qqfile/linuxqq_3.2.25-45758_amd64.deb) [MAC DMG 40990](https://dldir1v6.qq.com/qqfile/QQ_v6.9.82.40990.dmg)") =
      [{ label := "LinuxX64 DEB 45758",
         url := "https://dldir1.qq.com/qqfile/linuxqq_3.2.25-45758_amd64.deb",
         platform := .linux, arch := .x64, format := .deb }] := by
  refine ⟨?_, ?_, List.filter_sublist _, by decide⟩
  · intro l hl
    rw [filterLinksForCurrentPlatform, List.mem_filter] at hl
    obtain ⟨-, hf⟩ := hl
    by_contra hne
    simp [hne] at hf
  · intro l hl hplat harch
    rw [filterLinksForCurrentPlatform, List.mem_filter]
    refine ⟨hl, ?_⟩
    simp [hplat, harch]

/-- If a tag lookup succeeded, `tagStep` made one or two requests. -/
theorem tagStep_some_calls (o : FetchOracle) (v : String) (r : GitHubRelease)
    (n : Nat) (h : tagStep o v = (some r, n)) : 1 ≤ n := by
  unfold tagStep at h
  split at h
  · split at h
    · obtain ⟨-, h2⟩ := Prod.mk.injEq .. ▸ h
      omega
    · split at h
      · obtain ⟨-, h2⟩ := Prod.mk.injEq .. ▸ h
        omega
      · obtain ⟨h1, -⟩ := Prod.mk.injEq .. ▸ h
        exact absurd h1 (by simp)
  · obtain ⟨h1, -⟩ := Prod.mk.injEq .. ▸ h
    exact absurd h1 (by simp)

/-- When a usable version hint is present and both tag lookups fail, the tag
phase yields nothing after exactly two requests. -/
theorem tagStep_both_fail (o : FetchOracle) (v : String) (m1 m2 : String)
    (hv1 : v ≠ "") (hv2 : v ≠ "unknown")
    (h1 : o.tagged (exactTagName v) = .error m1)
    (h2 : o.tagged (upperTagName v) = .error m2) :
    tagStep o v = (none, 2) := by
  unfold tagStep
  rw [if_pos (by simp [hv1, hv2]), h1, h2]

/-- If the tag phase produced nothing although a usable hint was present, both
tag lookups failed. -/
theorem tagStep_none_failures (o : FetchOracle) (v : String) (n : Nat)
    (hv1 : v ≠ "") (hv2 : v ≠ "unknown") (h : tagStep o v = (none, n)) :
    (∃ m, o.tagged (exactTagName v) = .error m) ∧
    (∃ m, o.tagged (upperTagName v) = .error m) := by
  unfold tagStep at h
  rw [if_pos (by simp [hv1, hv2])] at h
  rcases he : o.tagged (exactTagName v) with m | r
  · rw [he] at h
    rcases hu : o.tagged (upperTagName v) with m2 | r2
    · exact ⟨⟨m, rfl⟩, ⟨m2, rfl⟩⟩
    · rw [hu] at h
      obtain ⟨hc, -⟩ := Prod.mk.injEq .. ▸ h
      exact absurd hc (by simp)
  · rw [he] at h
    obtain ⟨hc, -⟩ := Prod.mk.injEq .. ▸ h
    exact absurd hc (by simp)

/-- A cache hit (fresh entry under the same resolved key) short-circuits the
fetch: the cached release is returned, the cache is unchanged, and no HTTP
request is made. -/
theorem fetch_hit (o : FetchOracle) (v : String) (now : Nat) (c : ReleaseCache)
    (r : GitHubRelease) (hd : c.data = some r)
    (hv : c.version = resolvedKey v)
    (ht : now - c.timestamp < CACHE_TTL_MS) :
    fetchMatchingRelease o v now c = (some r, c, 0) := by
  simp only [fetchMatchingRelease]
  rw [if_pos]
  · rw [hd]
  · simp [hd, hv, ht]

/-- A cache miss always issues at least one HTTP request. -/
theorem fetch_calls_pos (o : FetchOracle) (v : String) (now : Nat)
    (c : ReleaseCache)
    (hmiss : ¬(c.data.isSome = true ∧ c.version = resolvedKey v ∧
      now - c.timestamp < CACHE_TTL_MS)) :
    1 ≤ (fetchMatchingRelease o v now c).2.2 := by
  simp only [fetchMatchingRelease]
  rw [if_neg]
  · split
    · rename_i r n heq
      exact tagStep_some_calls o v r n heq
    · split <;> simp
  · simp only [Bool.and_eq_true, decide_eq_true_eq]
    exact fun h => hmiss ⟨h.1.1, h.1.2, h.2⟩

/-- A fetch that hits the network and succeeds rewrites the cache with the
fetched release, the current time, and the resolved version key. -/
theorem fetch_network_cache (o : FetchOracle) (v : String) (now : Nat)
    (c c2 : ReleaseCache) (r : GitHubRelease) (n : Nat)
    (h : fetchMatchingRelease o v now c = (some r, c2, n)) (hn : 1 ≤ n) :
    c2 = { data := some r, timestamp := now, version := resolvedKey v } := by
  simp only [fetchMatchingRelease] at h
  split at h
  · obtain ⟨-, -, h3⟩ : _ ∧ _ ∧ (0 : Nat) = n := by
      simpa [Prod.ext_iff] using h
    omega
  · split at h
    · rename_i r2 n2 heq
      obtain ⟨hr, hc, -⟩ : some r2 = some r ∧ _ ∧ _ := by
        simpa [Prod.ext_iff] using h
      rw [← hc]
      injection hr with hr
      rw [hr]
    · rename_i n2 heq
      rcases hlat : o.latest with m | r2 <;> rw [hlat] at h
      · simp [Prod.ext_iff] at h
      · obtain ⟨hr, hc, -⟩ : some r2 = some r ∧ _ ∧ _ := by
          simpa [Prod.ext_iff] using h
        rw [← hc]
        injection hr with hr
        rw [hr]

/-- C8 (witness). -/
theorem filterLinks_platform_match_witness :
    ({ label := "a", url := "u", platform := .linux, arch := .unknown,
       format := .deb } : QQDownloadLink) ∈
      filterLinksForCurrentPlatform "linux" "x64"
        [{ label := "a", url := "u", platform := .linux, arch := .unknown,
           format := .deb }] :=
  (filterLinks_platform_match "linux" "x64" _).2.1 _ (by decide) (by decide) rfl

/-- C4: failures along the fallback chain (exact tag, upper-case tag, latest)
are non-fatal: when both exact-tag lookups fail and `latest` succeeds, the
latest descriptor is returned (after 3 requests) without raising; and for any
oracle, a `none` result occurs only when `latest` itself failed — and, with a
usable version hint, only when both tag lookups failed as well. -/
theorem fetchMatchingRelease_fallback (o : FetchOracle) (v : String) (now : Nat)
    (c : ReleaseCache) (r : GitHubRelease) (m1 m2 : String)
    (hv1 : v ≠ "") (hv2 : v ≠ "unknown") (hmiss : c.data = none)
    (h1 : o.tagged (exactTagName v) = .error m1)
    (h2 : o.tagged (upperTagName v) = .error m2)
    (h3 : o.latest = .ok r) :
    fetchMatchingRelease o v now c =
      (some r, { data := some r, timestamp := now, version := resolvedKey v }, 3) ∧
    (∀ o2 : FetchOracle, ∀ w : String,
      (fetchMatchingRelease o2 w now clearedCache).1 = none →
      ∃ m, o2.latest = .error m) ∧
    (∀ o2 : FetchOracle,
      (fetchMatchingRelease o2 v now c).1 = none →
      (∃ m, o2.latest = .error m) ∧
      (∃ m, o2.tagged (exactTagName v) = .error m) ∧
      (∃ m, o2.tagged (upperTagName v) = .error m)) := by
  refine ⟨?_, ?_, ?_⟩
  · simp only [fetchMatchingRelease]
    rw [if_neg (by simp [hmiss]), tagStep_both_fail o v m1 m2 hv1 hv2 h1 h2, h3]
  · intro o2 w hn
    rcases hlat : o2.latest with m | r2
    · exact ⟨m, rfl⟩
    · exfalso
      simp only [fetchMatchingRelease] at hn
      rw [if_neg (by simp [clearedCache])] at hn
      rcases hts : tagStep o2 w with ⟨d, nn⟩
      rw [hts] at hn
      rcases d with - | r3
      · rw [hlat] at hn
        simp at hn
      · simp at hn
  · intro o2 hn
    rcases hlat : o2.latest with m | r2
    · refine ⟨⟨m, rfl⟩, ?_⟩
      simp only [fetchMatchingRelease] at hn
      rw [if_neg (by simp [hmiss])] at hn
      rcases hts : tagStep o2 v with ⟨d, nn⟩
      rw [hts] at hn
      rcases d with - | r3
      · exact tagStep_none_failures o2 v nn hv1 hv2 hts
      · simp at hn
    · exfalso
      simp only [fetchMatchingRelease] at hn
      rw [if_neg (by simp [hmiss])] at hn
      rcases hts : tagStep o2 v with ⟨d, nn⟩
      rw [hts] at hn
      rcases d with - | r3
      · rw [hlat] at hn
        simp at hn
      · simp at hn

/-- C4 (witness). -/
theorem fetchMatchingRelease_fallback_witness :
    fetchMatchingRelease cexOracle "4.15.17" 0 clearedCache =
      (some cexRelease,
       { data := some cexRelease, timestamp := 0, version := "4.15.17" }, 3) := by
  have h := (fetchMatchingRelease_fallback cexOracle "4.15.17" 0 clearedCache
    cexRelease "HTTP 404" "HTTP 404" (by decide) (by decide) rfl rfl rfl rfl).1
  simpa [resolvedKey] using h

/-- C5 (counterexample): the TTL window is measured from the cache write, not
from the previous resolution — a resolution at t=299999 hits a cache written
at t=0, and a second resolution only 2ms later (t=300001, same hint) misses
the now-stale cache and issues network requests, although the pair is
separated by far less than the 5-minute TTL. -/
theorem release_cache_pair_cex :
    fetchMatchingRelease cexOracle "4.15.17" 299999 cexCache =
      (some cexRelease, cexCache, 0) ∧
    300001 - 299999 < CACHE_TTL_MS ∧
    1 ≤ (fetchMatchingRelease cexOracle "4.15.17" 300001 cexCache).2.2 := by
  refine ⟨rfl, by decide, by decide⟩

/-- C5 (amended): after a resolution that actually fetched from the network
(so the cache entry carries that resolution's timestamp), a second resolution
with the same hint less than the TTL after the cache write returns the cached
descriptor and issues no network request, for any network oracle; a resolution
after TTL expiry, or with a hint resolving to a different key, or after
`clearCache`, issues at least one new network request. -/
theorem release_cache_ttl (o : FetchOracle) (v : String) (t0 t1 : Nat)
    (c c1 : ReleaseCache) (r : GitHubRelease) (n1 : Nat)
    (hfirst : fetchMatchingRelease o v t0 c = (some r, c1, n1)) (hn1 : 1 ≤ n1) :
    (∀ o2 : FetchOracle, t1 - t0 < CACHE_TTL_MS →
       fetchMatchingRelease o2 v t1 c1 = (some r, c1, 0)) ∧
    (∀ o2 : FetchOracle, CACHE_TTL_MS ≤ t1 - t0 →
       1 ≤ (fetchMatchingRelease o2 v t1 c1).2.2) ∧
    (∀ o2 : FetchOracle, ∀ w : String, resolvedKey w ≠ resolvedKey v →
       1 ≤ (fetchMatchingRelease o2 w t1 c1).2.2) ∧
    (∀ o2 : FetchOracle, 1 ≤ (fetchMatchingRelease o2 v t1 clearedCache).2.2) := by
  have hc1 : c1 = { data := some r, timestamp := t0, version := resolvedKey v } :=
    fetch_network_cache o v t0 c c1 r n1 hfirst hn1
  subst hc1
  refine ⟨?_, ?_, ?_, ?_⟩
  · intro o2 ht
    exact fetch_hit o2 v t1 _ r rfl rfl ht
  · intro o2 ht
    refine fetch_calls_pos o2 v t1 _ ?_
    rintro ⟨-, -, h3⟩
    exact absurd h3 (not_lt.mpr ht)
  · intro o2 w hw
    refine fetch_calls_pos o2 w t1 _ ?_
    rintro ⟨-, h2, -⟩
    exact hw h2.symm
  · intro o2
    refine fetch_calls_pos o2 v t1 _ ?_
    rintro ⟨h1, -, -⟩
    simp [clearedCache] at h1

/-- C5 (witness). -/
theorem release_cache_ttl_witness :
    fetchMatchingRelease cexOracle "4.15.17" 100
      { data := some cexRelease, timestamp := 0, version := "4.15.17" } =
      (some cexRelease,
       { data := some cexRelease, timestamp := 0, version := "4.15.17" }, 0) :=
  (release_cache_ttl cexOracle "4.15.17" 0 100 clearedCache
      { data := some cexRelease, timestamp := 0, version := "4.15.17" }
      cexRelease 3 (by decide) (by decide)).1 cexOracle (by decide)

/-- C1 (code bug): `startInstall` sets `installRunning = true` and then
immediately calls `resetInstallProgress()`, which clears the flag again; so
once the first run suspends on its first await (its download), a concurrent
`startInstall` sees `installRunning == false`, is NOT rejected, and mutates
`InstallProgress` — the claimed exclusivity does not hold during a real run. -/
theorem startInstall_exclusivity_code_bug :
    (startInstallPrelude envRootlessOk freshState).2 = none ∧
    isInstallRunning (startInstallPrelude envRootlessOk freshState).1 = false ∧
    (startInstall envRootlessOk debLink
        (startInstallPrelude envRootlessOk freshState).1).2 ≠
      some "已有安装任务正在进行中" ∧
    (startInstall envRootlessOk debLink
        (startInstallPrelude envRootlessOk freshState).1).1.progress ≠
      (startInstallPrelude envRootlessOk freshState).1.progress := by
  refine ⟨rfl, rfl, by decide, by decide⟩

/-- C2 (counterexample): a precondition violation is not always rejected
before state mutation — on linux an unsupported package format yields a
specific rejection, but only after `resetInstallProgress()` has overwritten
the progress record (here, a previous run's `done` record). -/
theorem startInstall_format_mutation_cex :
    (startInstall envRootlessOk exeLink doneState).2 =
      some "不支持的安装包格式: exe，Linux 仅支持 deb/rpm" ∧
    (startInstall envRootlessOk exeLink doneState).1.progress ≠
      doneState.progress := by
  refine ⟨by decide, by decide⟩

/-- C2 (amended): the running-flag guard, the win32/darwin platform throws,
and the route's missing-URL check reject synchronously with a specific reason
and without any state mutation — in particular a macOS start-install is
rejected with a platform-specific message and `InstallProgress` is untouched;
the unsupported-package-format violation is also rejected synchronously with
a specific reason, but only after the progress record has been reset to
`idle` (a state mutation), rather than before any mutation. -/
theorem startInstall_precondition_rejections (env : InstallEnv)
    (link : QQDownloadLink) (body : RouteBody) (s : SysState) :
    (s.running = true → startInstall env link s =
      (s, some "已有安装任务正在进行中")) ∧
    (s.running = false → env.platform = "win32" → startInstall env link s =
      (s, some "Windows 平台不支持自动安装，请手动下载安装")) ∧
    (s.running = false → env.platform = "darwin" → startInstall env link s =
      (s, some "macOS 平台不支持自动安装，请手动下载安装")) ∧
    (env.platform ≠ "win32" → env.platform ≠ "darwin" → s.running = false →
      body.url = none →
      installStartRoute env body s = (s, some "缺少下载链接 url", false)) ∧
    (s.running = false → env.platform = "linux" → env.docker = false →
      env.rootless = true → getSystemArch env.arch ≠ .unknown →
      link.format ≠ .deb → link.format ≠ .rpm →
      startInstall env link s =
        (resetInstallProgressM { s with running := true },
         some ("不支持的安装包格式: " ++ formatName link.format ++
           "，Linux 仅支持 deb/rpm")) ∧
      (resetInstallProgressM { s with running := true }).progress =
        idleProgress) := by
  refine ⟨?_, ?_, ?_, ?_, ?_⟩
  · intro hrun
    simp [startInstall, hrun]
  · intro hrun hplat
    simp [startInstall, hrun, hplat]
  · intro hrun hplat
    simp [startInstall, hrun, hplat,
      show ("darwin" : String) ≠ "win32" by decide]
  · intro hw hd hrun hurl
    simp [installStartRoute, isInstallRunning, hw, hd, hrun, hurl]
  · intro hrun hplat hdocker hroot harch hdeb hrpm
    refine ⟨?_, rfl⟩
    simp only [startInstall, installDispatch, installOnLinuxRootless, hrun,
      hplat, hdocker, hroot, harch, hdeb, hrpm, ne_eq, not_false_eq_true,
      not_true, not_true_eq_false, eq_self_iff_true, reduceIte,
      Bool.false_eq_true, Bool.and_self, Bool.and_false, Bool.false_and,
      Bool.and_true, Bool.true_and, decide_eq_true_eq, reduceCtorEq,
      if_true, if_false,
      show ¬("linux" : String) = "win32" from by decide,
      show ¬("linux" : String) = "darwin" from by decide]
    rfl

/-- C2 (witness). -/
theorem startInstall_precondition_rejections_witness :
    startInstall { envRootlessOk with platform := "darwin" } debLink freshState =
      (freshState, some "macOS 平台不支持自动安装，请手动下载安装") ∧
    startInstall envRootlessOk exeLink freshState =
      (resetInstallProgressM { freshState with running := true },
       some ("不支持的安装包格式: " ++ formatName exeLink.format ++
         "，Linux 仅支持 deb/rpm")) := by
  refine ⟨?_, ?_⟩
  · exact (startInstall_precondition_rejections
      { envRootlessOk with platform := "darwin" } debLink
      ⟨none, none, none, none, none⟩ freshState).2.2.1 rfl rfl
  · exact ((startInstall_precondition_rejections envRootlessOk exeLink
      ⟨none, none, none, none, none⟩ freshState).2.2.2.2 rfl rfl rfl rfl
      (by decide) (by decide) (by decide)).1

/-- Classification of the error message a failing download stage can raise. -/
theorem downloadStage_error (env : InstallEnv) (msg : String) (s s2 : SysState)
    (e : String) (h : downloadStage env msg s = (s2, some e)) :
    env.dlResult = some e ∨ e = "安装包下载失败：文件不存在" ∨
    e = "安装包下载失败：文件过小，可能下载不完整" := by
  unfold downloadStage at h
  split at h
  · rename_i m heq
    obtain ⟨-, h2⟩ := Prod.mk.injEq .. ▸ h
    rw [← Option.some.inj h2]
    exact Or.inl heq
  · split at h
    · obtain ⟨-, h2⟩ := Prod.mk.injEq .. ▸ h
      exact Or.inr (Or.inl (Option.some.inj h2).symm)
    · split at h
      · obtain ⟨-, h2⟩ := Prod.mk.injEq .. ▸ h
        exact Or.inr (Or.inr (Option.some.inj h2).symm)
      · obtain ⟨-, h2⟩ := Prod.mk.injEq .. ▸ h
        exact absurd h2 (by simp)

/-- Classification of the error message a failing install body can raise
(superset covering all three topologies). -/
def bodyErrorSpec (env : InstallEnv) (e : String) : Prop :=
  env.mkdirResult = some e ∨ env.dlResult = some e ∨
  env.extractResult = some e ∨ env.copyResult = some e ∨
  env.installCmdResult = some e ∨
  e = "安装包下载失败：文件不存在" ∨
  e = "安装包下载失败：文件过小，可能下载不完整" ∨
  e = "解压失败：未找到 opt/QQ 目录"

/-- A failing rootless body raises one of the classified messages. -/
theorem rootlessBody_error (env : InstallEnv) (s s2 : SysState) (e : String)
    (h : rootlessBody env s = (s2, some e)) : bodyErrorSpec env e := by
  unfold rootlessBody at h
  split at h
  · rename_i m heq
    obtain rfl : m = e := Option.some.inj (congrArg Prod.snd h)
    exact Or.inl heq
  · split at h
    · rename_i sd ed heq
      obtain rfl : ed = e := Option.some.inj (congrArg Prod.snd h)
      rcases downloadStage_error _ _ _ _ _ heq with hh | hh | hh
      · exact Or.inr (Or.inl hh)
      · exact Or.inr (Or.inr (Or.inr (Or.inr (Or.inr (Or.inl hh)))))
      · exact Or.inr (Or.inr (Or.inr (Or.inr (Or.inr (Or.inr (Or.inl hh))))))
    · split at h
      · rename_i m heq
        obtain rfl : m = e := Option.some.inj (congrArg Prod.snd h)
        exact Or.inr (Or.inr (Or.inl heq))
      · split at h
        · obtain rfl : "解压失败：未找到 opt/QQ 目录" = e :=
            Option.some.inj (congrArg Prod.snd h)
          exact Or.inr (Or.inr (Or.inr (Or.inr (Or.inr (Or.inr (Or.inr rfl))))))
        · split at h
          · rename_i m heq
            obtain rfl : m = e := Option.some.inj (congrArg Prod.snd h)
            exact Or.inr (Or.inr (Or.inr (Or.inl heq)))
          · exact absurd (congrArg Prod.snd h) (by simp)

/-- A failing Docker body raises one of the classified messages. -/
theorem dockerBody_error (env : InstallEnv) (s s2 : SysState) (e : String)
    (h : dockerBody env s = (s2, some e)) : bodyErrorSpec env e := by
  unfold dockerBody at h
  split at h
  · rename_i m heq
    obtain rfl : m = e := Option.some.inj (congrArg Prod.snd h)
    exact Or.inl heq
  · split at h
    · rename_i sd ed heq
      obtain rfl : ed = e := Option.some.inj (congrArg Prod.snd h)
      rcases downloadStage_error _ _ _ _ _ heq with hh | hh | hh
      · exact Or.inr (Or.inl hh)
      · exact Or.inr (Or.inr (Or.inr (Or.inr (Or.inr (Or.inl hh)))))
      · exact Or.inr (Or.inr (Or.inr (Or.inr (Or.inr (Or.inr (Or.inl hh))))))
    · split at h
      · rename_i m heq
        obtain rfl : m = e := Option.some.inj (congrArg Prod.snd h)
        exact Or.inr (Or.inr (Or.inl heq))
      · split at h
        · obtain rfl : "解压失败：未找到 opt/QQ 目录" = e :=
            Option.some.inj (congrArg Prod.snd h)
          exact Or.inr (Or.inr (Or.inr (Or.inr (Or.inr (Or.inr (Or.inr rfl))))))
        · split at h
          · rename_i m heq
            obtain rfl : m = e := Option.some.inj (congrArg Prod.snd h)
            exact Or.inr (Or.inr (Or.inr (Or.inl heq)))
          · exact absurd (congrArg Prod.snd h) (by simp)

/-- A failing system-wide body raises one of the classified messages. -/
theorem systemBody_error (env : InstallEnv) (link : QQDownloadLink)
    (s s2 : SysState) (e : String)
    (h : systemBody env link s = (s2, some e)) : bodyErrorSpec env e := by
  unfold systemBody at h
  split at h
  · rename_i m heq
    obtain rfl : m = e := Option.some.inj (congrArg Prod.snd h)
    exact Or.inl heq
  · split at h
    · rename_i sd ed heq
      obtain rfl : ed = e := Option.some.inj (congrArg Prod.snd h)
      rcases downloadStage_error _ _ _ _ _ heq with hh | hh | hh
      · exact Or.inr (Or.inl hh)
      · exact Or.inr (Or.inr (Or.inr (Or.inr (Or.inr (Or.inl hh)))))
      · exact Or.inr (Or.inr (Or.inr (Or.inr (Or.inr (Or.inr (Or.inl hh))))))
    · split at h
      · rename_i m heq
        obtain rfl : m = e := Option.some.inj (congrArg Prod.snd h)
        exact Or.inr (Or.inr (Or.inr (Or.inr (Or.inl heq))))
      · exact absurd (congrArg Prod.snd h) (by simp)

/-- Classified error messages are non-empty whenever the injected messages
are. -/
theorem bodyErrorSpec_nonempty (env : InstallEnv) (e : String)
    (hmsg : envMsgsOk env = true) (h : bodyErrorSpec env e) : e ≠ "" := by
  simp only [envMsgsOk, Bool.and_eq_true] at hmsg
  obtain ⟨⟨⟨⟨h1, h2⟩, h3⟩, h4⟩, h5⟩ := hmsg
  rcases h with h | h | h | h | h | h | h | h
  · rw [h] at h1
    simpa [msgOk] using h1
  · rw [h] at h2
    simpa [msgOk] using h2
  · rw [h] at h3
    simpa [msgOk] using h3
  · rw [h] at h4
    simpa [msgOk] using h4
  · rw [h] at h5
    simpa [msgOk] using h5
  · subst h
    decide
  · subst h
    decide
  · subst h
    decide

/-- With its precondition throws passing, the Docker installer is exactly its
guarded body. -/
theorem installOnDocker_pre (env : InstallEnv) (link : QQDownloadLink)
    (s1 : SysState) (hp : dockerPrecheckOk env link = true) :
    installOnDocker env link s1 = withInstallCatch env (dockerBody env) s1 := by
  simp only [dockerPrecheckOk, Bool.and_eq_true, decide_eq_true_eq] at hp
  obtain ⟨⟨ha, hf⟩, hi⟩ := hp
  simp [installOnDocker, ha, hf, hi]

/-- With its precondition throws passing, the rootless installer is exactly
its guarded body. -/
theorem installOnLinuxRootless_pre (env : InstallEnv) (link : QQDownloadLink)
    (s1 : SysState) (hp : rootlessPrecheckOk env link = true) :
    installOnLinuxRootless env link s1 =
      withInstallCatch env (rootlessBody env) s1 := by
  simp only [rootlessPrecheckOk, Bool.and_eq_true, Bool.or_eq_true,
    decide_eq_true_eq] at hp
  obtain ⟨⟨ha, hf⟩, hh⟩ := hp
  rcases hf with ⟨hdeb, hdpkg⟩ | ⟨hrpm, htools⟩
  · simp [installOnLinuxRootless, ha, hdeb, hdpkg, hh]
  · simp [installOnLinuxRootless, ha, hrpm, htools, hh]

/-- With its precondition throws passing, the system-wide installer is
exactly its guarded body. -/
theorem installOnLinuxSystem_pre (env : InstallEnv) (link : QQDownloadLink)
    (s1 : SysState) (hp : systemPrecheckOk env link = true) :
    installOnLinuxSystem env link s1 =
      withInstallCatch env (systemBody env link) s1 := by
  simp only [systemPrecheckOk, Bool.and_eq_true, Bool.or_eq_true,
    decide_eq_true_eq] at hp
  obtain ⟨ha, hf⟩ := hp
  rcases hf with ⟨hdeb, hdpkg⟩ | ⟨hrpm, hrpmI⟩
  · simp [installOnLinuxSystem, ha, hdeb, hdpkg]
  · simp [installOnLinuxSystem, ha, hrpm, hrpmI]

/-- When the guarded body throws, the catch wrapper ends in the `error`
progress record carrying the raised message (percent 0), after attempting
scratch cleanup. -/
theorem withInstallCatch_error_state (env : InstallEnv)
    (body : SysState → SysState × Option String) (s1 : SysState) (e : String)
    (he : (withInstallCatch env body s1).2 = some e) :
    (withInstallCatch env body s1).1.progress.stage = .error ∧
    (withInstallCatch env body s1).1.progress.error = some e ∧
    (withInstallCatch env body s1).1.progress.percent = 0 ∧
    InstallAction.scratchCleanup (!env.cleanupFails) ∈
      (withInstallCatch env body s1).1.actions ∧
    ∃ sb, body s1 = (sb, some e) := by
  rcases hb : body s1 with ⟨sb, eb⟩
  rcases eb with - | m
  · unfold withInstallCatch at he
    rw [hb] at he
    exact absurd he (by simp)
  · unfold withInstallCatch at he
    rw [hb] at he
    have he2 : some m = some e := he
    obtain rfl := Option.some.inj he2
    refine ⟨?_, ?_, ?_, ?_, ⟨sb, rfl⟩⟩ <;>
      · unfold withInstallCatch
        rw [hb]
        simp [updateProgressM, attemptCleanup]

/-- C3: whenever a pipeline stage of an accepted install run throws (the
preconditions passed, so the run entered its `try` block), the run ends with
`isInstallRunning() == false` and the progress record in stage `error`,
percent 0, carrying the raised message verbatim (non-empty whenever the
injected messages are); scratch cleanup is attempted on the failure path, and
the cleanup attempt itself never alters progress, trace, or the running flag
(its failure is swallowed). -/
theorem install_failure_semantics (env : InstallEnv) (link : QQDownloadLink)
    (s s2 : SysState) (e : String)
    (hplat : env.platform = "linux") (hrun : s.running = false)
    (hpre : installPrechecksOk env link = true)
    (hmsg : envMsgsOk env = true)
    (hres : startInstall env link s = (s2, some e)) :
    isInstallRunning s2 = false ∧ s2.progress.stage = .error ∧
    s2.progress.error = some e ∧ s2.progress.percent = 0 ∧ e ≠ "" ∧
    InstallAction.scratchCleanup (!env.cleanupFails) ∈ s2.actions ∧
    (∀ t : SysState, (attemptCleanup env t).progress = t.progress ∧
      (attemptCleanup env t).trace = t.trace ∧
      (attemptCleanup env t).running = t.running) := by
  have hclean : ∀ t : SysState, (attemptCleanup env t).progress = t.progress ∧
      (attemptCleanup env t).trace = t.trace ∧
      (attemptCleanup env t).running = t.running := fun t => ⟨rfl, rfl, rfl⟩
  unfold startInstall at hres
  rw [if_neg (by simp [hrun])] at hres
  rw [if_neg (by simp [hplat])] at hres
  rw [if_neg (by simp [hplat])] at hres
  rw [if_neg (by simp [hplat])] at hres
  have hs2 := congrArg Prod.fst hres
  have he := congrArg Prod.snd hres
  simp only at hs2 he
  unfold installPrechecksOk at hpre
  unfold installDispatch at hs2 he
  rcases hdo : env.docker with - | -
  all_goals rw [hdo] at hpre hs2 he
  case' true =>
    rw [if_pos rfl] at hpre
    rw [if_pos rfl] at hs2 he
    rw [installOnDocker_pre env link _ hpre] at hs2 he
  case' false =>
    rw [if_neg (by simp)] at hpre
    rw [if_neg (by simp)] at hs2 he
  rotate_left
  · -- docker topology
    obtain ⟨hstage, herr, hpct, hact, sb, hbody⟩ :=
      withInstallCatch_error_state env (dockerBody env) _ e he
    have hne : e ≠ "" :=
      bodyErrorSpec_nonempty env e hmsg (dockerBody_error env _ sb e hbody)
    subst hs2
    exact ⟨rfl, hstage, herr, hpct, hne, hact, hclean⟩
  · -- non-docker: rootless or system
    rcases hro : env.rootless with - | -
    all_goals rw [hro] at hpre hs2 he
    · rw [if_neg (by simp)] at hpre
      rw [if_neg (by simp)] at hs2 he
      rw [installOnLinuxSystem_pre env link _ hpre] at hs2 he
      obtain ⟨hstage, herr, hpct, hact, sb, hbody⟩ :=
        withInstallCatch_error_state env (systemBody env link) _ e he
      have hne : e ≠ "" :=
        bodyErrorSpec_nonempty env e hmsg (systemBody_error env link _ sb e hbody)
      subst hs2
      exact ⟨rfl, hstage, herr, hpct, hne, hact, hclean⟩
    · rw [if_pos rfl] at hpre
      rw [if_pos rfl] at hs2 he
      rw [installOnLinuxRootless_pre env link _ hpre] at hs2 he
      obtain ⟨hstage, herr, hpct, hact, sb, hbody⟩ :=
        withInstallCatch_error_state env (rootlessBody env) _ e he
      have hne : e ≠ "" :=
        bodyErrorSpec_nonempty env e hmsg (rootlessBody_error env _ sb e hbody)
      subst hs2
      exact ⟨rfl, hstage, herr, hpct, hne, hact, hclean⟩

/-- C3 (witness). -/
theorem install_failure_semantics_witness :
    isInstallRunning (startInstall envFailExtract debLink freshState).1 = false ∧
    (startInstall envFailExtract debLink freshState).1.progress.stage = .error ∧
    (startInstall envFailExtract debLink freshState).1.progress.error =
      some "dpkg exploded" := by
  have h2 : (startInstall envFailExtract debLink freshState).2 =
      some "dpkg exploded" := by decide
  have hres : startInstall envFailExtract debLink freshState =
      ((startInstall envFailExtract debLink freshState).1, some "dpkg exploded") := by
    rw [← h2]
  have h := install_failure_semantics envFailExtract debLink freshState
    (startInstall envFailExtract debLink freshState).1 "dpkg exploded"
    rfl rfl (by decide) (by decide) hres
  exact ⟨h.1, h.2.1, h.2.2.1⟩

/-- The trace invariant's bound may be weakened. -/
theorem traceOk_mono (k k2 : Nat) (s : SysState) (hk : k ≤ k2)
    (h : TraceOk k s) : TraceOk k2 s :=
  ⟨h.1, fun p hp => le_trans (h.2.1 p hp) hk, h.2.2⟩

/-- A non-error write with a percent at or above the current bound preserves
the trace invariant at the new percent. -/
theorem traceOk_update (k n : Nat) (s : SysState) (st : InstallStage)
    (msg : String) (ex : ProgressExtra) (h : TraceOk k s) (hk : k ≤ n)
    (hst : st ≠ .error) :
    TraceOk n (updateProgressM s st n msg ex) := by
  obtain ⟨hc, hl, he⟩ := h
  refine ⟨?_, ?_, ?_⟩
  · refine List.Chain'.append hc (List.chain'_singleton _) ?_
    intro x hx y hy
    rw [List.head?_cons, Option.mem_def, Option.some.injEq] at hy
    subst hy
    exact Or.inr (le_trans (hl x (by simpa using hx)) hk)
  · intro p hp
    rw [updateProgressM] at hp
    simp only [List.getLast?_concat] at hp
    obtain rfl := Option.some.inj hp
    exact le_refl n
  · intro p hp hpe
    rw [updateProgressM] at hp
    simp only [List.mem_append, List.mem_singleton] at hp
    rcases hp with hp | hp
    · exact he p hp hpe
    · subst hp
      exact absurd hpe hst

/-- The `error` write (percent 0) preserves the trace invariant at any
bound. -/
theorem traceOk_error_update (k n : Nat) (s : SysState) (msg : String)
    (ex : ProgressExtra) (h : TraceOk k s) :
    TraceOk n (updateProgressM s .error 0 msg ex) := by
  obtain ⟨hc, hl, he⟩ := h
  refine ⟨?_, ?_, ?_⟩
  · refine List.Chain'.append hc (List.chain'_singleton _) ?_
    intro x hx y hy
    rw [List.head?_cons, Option.mem_def, Option.some.injEq] at hy
    subst hy
    exact Or.inl rfl
  · intro p hp
    rw [updateProgressM] at hp
    simp only [List.getLast?_concat] at hp
    obtain rfl := Option.some.inj hp
    exact Nat.zero_le n
  · intro p hp hpe
    rw [updateProgressM] at hp
    simp only [List.mem_append, List.mem_singleton] at hp
    rcases hp with hp | hp
    · exact he p hp hpe
    · subst hp
      rfl

/-- The download-callback percent never exceeds 55. -/
theorem dlPercent_le (d t : Nat) : dlPercent d t ≤ 55 := by
  unfold dlPercent jsRound50
  split
  · exact min_le_right _ _
  · omega

/-- The download-callback percent is at least 5. -/
theorem le_dlPercent (d t : Nat) : 5 ≤ dlPercent d t := by
  unfold dlPercent jsRound50
  split
  · exact le_min (Nat.le_add_left 5 _) (by omega)
  · omega

/-- The download-callback percent is monotone in the accumulated byte
count. -/
theorem dlPercent_mono (d d2 t : Nat) (h : d ≤ d2) :
    dlPercent d t ≤ dlPercent d2 t := by
  unfold dlPercent jsRound50
  split
  · refine min_le_min (Nat.add_le_add_right ?_ 5) le_rfl
    exact Nat.div_le_div_right (Nat.add_le_add_right (Nat.mul_le_mul_left 100 h) t)
  · exact le_rfl

/-- The download callback loop preserves the trace invariant, ending below
the 55% cap. -/
theorem dlEvents_traceOk (t : Nat) (chunks : List (Nat × Bool)) (acc : Nat)
    (s : SysState) (h : TraceOk (dlPercent acc t) s) :
    TraceOk 55 (dlEvents t chunks acc s) := by
  induction chunks generalizing acc s with
  | nil => exact traceOk_mono _ _ _ (dlPercent_le acc t) h
  | cons c rest ih =>
    obtain ⟨cs, fire⟩ := c
    cases fire
    · exact ih (acc + cs) s
        (traceOk_mono _ _ _ (dlPercent_mono _ _ _ (Nat.le_add_right acc cs)) h)
    · exact ih (acc + cs) _
        (traceOk_update _ _ _ _ _ _ h
          (dlPercent_mono _ _ _ (Nat.le_add_right acc cs)) (by decide))

/-- The download stage preserves the trace invariant up to 55%. -/
theorem downloadStage_traceOk (env : InstallEnv) (msg : String) (s : SysState)
    (h : TraceOk 0 s) : TraceOk 55 (downloadStage env msg s).1 := by
  unfold downloadStage
  have h5 : TraceOk 5 (updateProgressM s .downloading 5 msg
      ⟨some 0, some 0, some 0, none, none⟩) :=
    traceOk_update 0 5 s _ msg _ h (by omega) (by decide)
  have hdl : TraceOk 55 (dlEvents env.dlTotal env.dlChunks 0
      (updateProgressM s .downloading 5 msg ⟨some 0, some 0, some 0, none, none⟩)) :=
    dlEvents_traceOk env.dlTotal env.dlChunks 0 _
      (traceOk_mono 5 _ _ (le_dlPercent 0 env.dlTotal) h5)
  split
  · exact hdl
  · split
    · exact hdl
    · split
      · exact hdl
      · exact traceOk_update 55 55 _ .downloading "下载完成" {} hdl le_rfl (by decide)

/-- The rootless body preserves the trace invariant up to 100%. -/
theorem rootlessBody_traceOk (env : InstallEnv) (s : SysState)
    (h : TraceOk 0 s) : TraceOk 100 (rootlessBody env s).1 := by
  unfold rootlessBody
  have hact : TraceOk 0
      { s with actions := s.actions ++ [InstallAction.scratchReset] } := h
  split
  · exact traceOk_mono 0 100 _ (by omega) hact
  · split
    · rename_i sd ed heq
      have h55 := downloadStage_traceOk env "开始下载 QQ 安装包..." _ hact
      rw [heq] at h55
      exact traceOk_mono 55 100 _ (by omega) h55
    · rename_i sd heq
      have h55 := downloadStage_traceOk env "开始下载 QQ 安装包..." _ hact
      rw [heq] at h55
      have h58 := traceOk_update 55 58 sd .extracting "正在解压 QQ 安装包..." {}
        h55 (by omega) (by decide)
      split
      · exact traceOk_mono 58 100 _ (by omega) h58
      · split
        · exact traceOk_mono 58 100 _ (by omega) h58
        · have h65 := traceOk_update 58 65 _ .extracting "解压完成" {} h58
            (by omega) (by decide)
          have h70 := traceOk_update 65 70 _ .installing
            "正在更新 QQ 文件（不影响 NapCat）..." {} h65 (by omega) (by decide)
          split
          · exact traceOk_mono 70 100 _ (by omega) h70
          · have h82 := traceOk_update 70 82 _ .installing "文件覆盖完成" {} h70
              (by omega) (by decide)
            have h84 := traceOk_update 82 84 _ .installing
              "正在修补 NapCat 启动配置..." {} h82 (by omega) (by decide)
            have h88 := traceOk_update 84 88 _ .installing "正在更新版本配置..." {}
              h84 (by omega) (by decide)
            have h93 := traceOk_update 88 93 _ .installing "正在清理临时文件..." {}
              h88 (by omega) (by decide)
            exact traceOk_update 93 100 _ .done "QQ 安装完成！重启 NapCat 后生效。"
              ⟨none, none, none, none, some env.now⟩ h93 (by omega) (by decide)

/-- The Docker body preserves the trace invariant up to 100%. -/
theorem dockerBody_traceOk (env : InstallEnv) (s : SysState)
    (h : TraceOk 0 s) : TraceOk 100 (dockerBody env s).1 := by
  unfold dockerBody
  have hact : TraceOk 0
      { s with actions := s.actions ++ [InstallAction.scratchReset] } := h
  split
  · exact traceOk_mono 0 100 _ (by omega) hact
  · split
    · rename_i sd ed heq
      have h55 := downloadStage_traceOk env "开始下载 QQ 安装包 (Docker)..." _ hact
      rw [heq] at h55
      exact traceOk_mono 55 100 _ (by omega) h55
    · rename_i sd heq
      have h55 := downloadStage_traceOk env "开始下载 QQ 安装包 (Docker)..." _ hact
      rw [heq] at h55
      have h58 := traceOk_update 55 58 sd .extracting "正在解压 QQ 安装包 (dpkg -x)..."
        {} h55 (by omega) (by decide)
      split
      · exact traceOk_mono 58 100 _ (by omega) h58
      · split
        · exact traceOk_mono 58 100 _ (by omega) h58
        · have h65 := traceOk_update 58 65 _ .extracting "解压完成" {} h58
            (by omega) (by decide)
          have h70 := traceOk_update 65 70 _ .installing
            "正在更新 QQ 文件 (Docker /opt/QQ)..." {} h65 (by omega) (by decide)
          split
          · exact traceOk_mono 70 100 _ (by omega) h70
          · have h82 := traceOk_update 70 82 _ .installing "文件覆盖完成" {} h70
              (by omega) (by decide)
            have h84 := traceOk_update 82 84 _ .installing
              "正在修补 NapCat 启动配置 (Docker)..." {} h82 (by omega) (by decide)
            have h88 := traceOk_update 84 88 _ .installing "正在更新版本配置..." {}
              h84 (by omega) (by decide)
            have h93 := traceOk_update 88 93 _ .installing "正在清理临时文件..." {}
              h88 (by omega) (by decide)
            exact traceOk_update 93 100 _ .done "QQ 安装完成！重启 Docker 容器后生效。"
              ⟨none, none, none, none, some env.now⟩ h93 (by omega) (by decide)

/-- The system-wide body preserves the trace invariant up to 100%. -/
theorem systemBody_traceOk (env : InstallEnv) (link : QQDownloadLink)
    (s : SysState) (h : TraceOk 0 s) :
    TraceOk 100 (systemBody env link s).1 := by
  unfold systemBody
  split
  · exact traceOk_mono 0 100 _ (by omega) h
  · split
    · rename_i sd ed heq
      have h55 := downloadStage_traceOk env "开始下载 QQ 安装包..." _ h
      rw [heq] at h55
      exact traceOk_mono 55 100 _ (by omega) h55
    · rename_i sd heq
      have h55 := downloadStage_traceOk env "开始下载 QQ 安装包..." _ h
      rw [heq] at h55
      have h60 := traceOk_update 55 60 sd .installing "正在安装 QQ..." {} h55
        (by omega) (by decide)
      split
      · exact traceOk_mono 60 100 _ (by omega) h60
      · by_cases hf : link.format = PkgFormat.deb
        · simp only [if_pos hf]
          have h80 := traceOk_update 60 80 _ .installing "deb 包安装完成" {} h60
            (by omega) (by decide)
          have h85 := traceOk_update 80 85 _ .installing "正在安装依赖..." {} h80
            (by omega) (by decide)
          have h88 := traceOk_update 85 88 _ .installing "正在更新版本配置..." {}
            h85 (by omega) (by decide)
          have h90 := traceOk_update 88 90 _ .installing "正在清理临时文件..." {}
            h88 (by omega) (by decide)
          exact traceOk_update 90 100 _ .done "QQ 安装完成！重启 NapCat 后生效。"
            ⟨none, none, none, none, some env.now⟩ h90 (by omega) (by decide)
        · simp only [if_neg hf]
          have h85 := traceOk_update 60 85 _ .installing "rpm 包安装完成" {} h60
            (by omega) (by decide)
          have h88 := traceOk_update 85 88 _ .installing "正在更新版本配置..." {}
            h85 (by omega) (by decide)
          have h90 := traceOk_update 88 90 _ .installing "正在清理临时文件..." {}
            h88 (by omega) (by decide)
          exact traceOk_update 90 100 _ .done "QQ 安装完成！重启 NapCat 后生效。"
            ⟨none, none, none, none, some env.now⟩ h90 (by omega) (by decide)

/-- The catch wrapper preserves the trace invariant (the error write is
exempted by `monoR` and carries percent 0). -/
theorem withInstallCatch_traceOk (env : InstallEnv)
    (body : SysState → SysState × Option String) (s : SysState)
    (hb : TraceOk 100 (body s).1) :
    TraceOk 100 (withInstallCatch env body s).1 := by
  unfold withInstallCatch
  split
  · rename_i s2 heq
    rw [heq] at hb
    exact hb
  · rename_i s2 e heq
    rw [heq] at hb
    exact traceOk_error_update 100 100 _ "安装失败" _ hb

/-- The rootless installer preserves the trace invariant (its precondition
throws write nothing). -/
theorem installOnLinuxRootless_traceOk (env : InstallEnv)
    (link : QQDownloadLink) (s : SysState) (h : TraceOk 0 s) :
    TraceOk 100 (installOnLinuxRootless env link s).1 := by
  unfold installOnLinuxRootless
  have h100 := traceOk_mono 0 100 s (by omega) h
  split
  · exact h100
  · split
    · exact h100
    · split
      · exact h100
      · split
        · exact h100
        · split
          · exact h100
          · exact withInstallCatch_traceOk env _ s (rootlessBody_traceOk env s h)

/-- The Docker installer preserves the trace invariant. -/
theorem installOnDocker_traceOk (env : InstallEnv) (link : QQDownloadLink)
    (s : SysState) (h : TraceOk 0 s) :
    TraceOk 100 (installOnDocker env link s).1 := by
  unfold installOnDocker
  have h100 := traceOk_mono 0 100 s (by omega) h
  split
  · exact h100
  · split
    · exact h100
    · split
      · exact h100
      · exact withInstallCatch_traceOk env _ s (dockerBody_traceOk env s h)

/-- The system-wide installer preserves the trace invariant. -/
theorem installOnLinuxSystem_traceOk (env : InstallEnv)
    (link : QQDownloadLink) (s : SysState) (h : TraceOk 0 s) :
    TraceOk 100 (installOnLinuxSystem env link s).1 := by
  unfold installOnLinuxSystem
  have h100 := traceOk_mono 0 100 s (by omega) h
  split
  · exact h100
  · split
    · exact h100
    · split
      · exact h100
      · split
        · exact h100
        · exact withInstallCatch_traceOk env _ s (systemBody_traceOk env link s h)

/-- C9: within a single install run (fresh trace), the sequence of
`InstallProgress.percent` values written is monotonically non-decreasing,
except that the transition to `error` — which is always written with
percent 0 — is exempt from the comparison. -/
theorem progress_percent_monotone (env : InstallEnv) (link : QQDownloadLink)
    (s : SysState) (h : s.trace = []) :
    List.Chain' monoR (startInstall env link s).1.trace ∧
    (∀ p ∈ (startInstall env link s).1.trace,
       p.stage = .error → p.percent = 0) := by
  have hnil : List.Chain' monoR s.trace ∧
      (∀ p ∈ s.trace, p.stage = .error → p.percent = 0) := by
    rw [h]
    exact ⟨List.chain'_nil, by simp⟩
  have hreset : TraceOk 0 (resetInstallProgressM { s with running := true }) := by
    refine ⟨?_, ?_, ?_⟩
    · show List.Chain' monoR (s.trace ++ [idleProgress])
      rw [h]
      exact List.chain'_singleton _
    · intro p hp
      rw [show (resetInstallProgressM { s with running := true }).trace =
        s.trace ++ [idleProgress] from rfl, h] at hp
      simp only [List.nil_append, List.getLast?_singleton] at hp
      obtain rfl := Option.some.inj hp
      exact le_refl 0
    · intro p hp hpe
      rw [show (resetInstallProgressM { s with running := true }).trace =
        s.trace ++ [idleProgress] from rfl, h] at hp
      simp only [List.nil_append, List.mem_singleton] at hp
      subst hp
      rfl
  unfold startInstall
  split
  · exact hnil
  · split
    · exact hnil
    · split
      · exact hnil
      · split
        · exact hnil
        · have hd : TraceOk 100 (installDispatch env link
              (resetInstallProgressM { s with running := true })).1 := by
            unfold installDispatch
            split
            · exact installOnDocker_traceOk env link _ hreset
            · split
              · exact installOnLinuxRootless_traceOk env link _ hreset
              · exact installOnLinuxSystem_traceOk env link _ hreset
          exact ⟨hd.1, hd.2.2⟩

/-- C9 (witness). -/
theorem progress_percent_monotone_witness :
    List.Chain' monoR (startInstall envRootlessOk debLink freshState).1.trace :=
  (progress_percent_monotone envRootlessOk debLink freshState rfl).1

end QQVer
